import Mathlib

/-!
Verification of the keyed action-concurrency coordination core described by
the blocsuperpowers documentation: key identity, freshness cache rollback,
retry backoff, the error-interception pipeline, the sequential queue state
machine, lifecycle resets, and the optimistic-sync engines.

The repository ships only the documentation of the library, not the library
implementation itself, so every definition below is modelled from the spec
and the behavioural descriptions in the documentation pages.
-/

namespace Superpowers

/-- Modelled from the spec: the key registry's sum type over the kinds of
values the documentation allows as keys (strings, integers, type tokens,
records/tuples, and raw object instances identified by class and identity).
The library implementation is not in the repository; this follows the
"Dynamic/duck-typed keys" design note and the "Key equality" section of
how-keys-work.md. -/
inductive KeyVal where
  | str (s : String)
  | nat (n : Nat)
  | typeToken (ty : Nat)
  | instanceRef (ty : Nat) (objId : Nat)
  | pair (k1 k2 : KeyVal)
  deriving DecidableEq, Repr

/-- Modelled from the spec: a Cubit/Bloc instance as seen by the key
registry, carrying its runtime type and its object identity. The actual
Dart classes are not in the repository. -/
structure BlocInstance where
  runtimeType : Nat
  instanceId : Nat
  deriving DecidableEq, Repr

/-- Modelled from the spec: what a caller can pass as the `key:` argument of
`mix` — either `this` (a Bloc/Cubit instance reference) or an explicit key
value. The resolution code is not in the repository. -/
inductive CallKey where
  | thisRef (b : BlocInstance)
  | explicitKey (k : KeyVal)
  deriving DecidableEq, Repr

/-- Modelled from the spec: key resolution per how-keys-work.md — passing
`key: this` inside a Cubit or Bloc makes the effective key the instance's
`runtimeType`, not the instance itself; an explicit key is used as given. -/
def effectiveKey : CallKey → KeyVal
  | .thisRef b => .typeToken b.runtimeType
  | .explicitKey k => k

/-- Modelled from the spec: update of one entry of a per-key map, using the
key registry's structural equality. All per-key maps of the core (waiting,
failed, freshness, throttle, queues) use this equivalence. -/
def mapUpdate {α : Type} (m : KeyVal → Option α) (k : KeyVal) (v : Option α) :
    KeyVal → Option α :=
  fun k2 => if k2 = k then v else m k2

end Superpowers

namespace OptimisticSync

/-- Modelled from the spec: the per-key coalescing state of the
`optimisticSync` engine (optimistic-sync.md) — the externally-observable
value, whether the per-key lock is held (a request is in flight), the value
the in-flight request carried, the number of requests sent so far, and
whether `onFinish` has been called. The engine implementation is not in the
repository. -/
structure SyncState (α : Type) where
  value : α
  lock : Bool
  sentValue : Option α
  requestsSent : Nat
  finished : Bool
  deriving Repr

/-- Modelled from the spec: initial per-key sync state with a given
externally-observable value: no request in flight, nothing sent. -/
def initState {α : Type} (v : α) : SyncState α :=
  { value := v, lock := false, sentValue := none, requestsSent := 0, finished := false }

/-- Modelled from the spec: a call to `optimisticSync` per optimistic-sync.md
— every call immediately applies its optimistic value to state; the call
that finds the key unlocked acquires the lock and sends the request with
that value; calls while locked only mutate state and send nothing. -/
def syncCall {α : Type} (s : SyncState α) (v : α) : SyncState α :=
  if s.lock then { s with value := v }
  else { s with value := v, lock := true, sentValue := some v,
                requestsSent := s.requestsSent + 1 }

/-- Modelled from the spec: request completion per optimistic-sync.md — the
value that was sent is compared against the current externally-observable
value; if equal the lock is released and `onFinish` is called, otherwise
exactly one follow-up request carrying the current value is sent and the
lock is retained. With no request in flight, completion is a no-op. -/
def syncComplete [DecidableEq α] (s : SyncState α) : SyncState α :=
  match s.sentValue with
  | none => s
  | some sent =>
    if s.value = sent then
      { s with lock := false, sentValue := none, finished := true }
    else
      { s with sentValue := some s.value, requestsSent := s.requestsSent + 1 }

/-- Modelled from the spec: one user toggle of a boolean field while using
`optimisticSync` — `valueToApply` is the negation of the current state value
(optimistic-sync.md's like-button example). -/
def toggle (s : SyncState Bool) : SyncState Bool :=
  syncCall s (!s.value)

end OptimisticSync

namespace Fresh

open Superpowers

/-- Modelled from the spec: the `FreshnessMap`, key to expiry instant
(fresh.md and §3 of the design). Instants are naturals (milliseconds). The
cache implementation is not in the repository. -/
structure FreshState where
  map : KeyVal → Option Nat

/-- Modelled from the spec: `checkFresh(key)` is true while `now` is before
the stored expiry instant for the key (§4.2); a fresh hit skips the action
entirely. -/
def checkFresh (s : FreshState) (k : KeyVal) (now : Nat) : Bool :=
  match s.map k with
  | none => false
  | some expiry => now < expiry

/-- Modelled from the spec: dispatch start for a `fresh`-guarded call — the
pre-dispatch entry for the key is captured (it is what a failure must
restore), and the tentative expiry `now + freshFor` is written so that the
failed attempt is the writer of any stale future expiry it introduces (§3:
"not left at a stale future expiry introduced by the failed attempt").
Returns the new map state together with the captured snapshot. -/
def freshStart (s : FreshState) (k : KeyVal) (now freshFor : Nat) :
    FreshState × Option Nat :=
  (⟨mapUpdate s.map k (some (now + freshFor))⟩, s.map k)

/-- Modelled from the spec: `commit(key, freshFor)` on success —
`FreshnessMap[key] = now + freshFor` (§4.2). -/
def freshCommit (s : FreshState) (k : KeyVal) (now freshFor : Nat) : FreshState :=
  ⟨mapUpdate s.map k (some (now + freshFor))⟩

/-- Modelled from the spec: rollback on failure (fresh.md "When the method
fails") — the entry is restored to the value captured at dispatch start, but
only if the current entry is still the one this dispatch wrote; an entry
written by a different call that completed after this one started is kept as
is, so a failure never erases a fresher entry. `mine` is the tentative
expiry this dispatch wrote at start, `snapshot` the captured pre-dispatch
value. -/
def freshRollback (s : FreshState) (k : KeyVal) (snapshot mine : Option Nat) :
    FreshState :=
  if s.map k = mine then ⟨mapUpdate s.map k snapshot⟩ else s

end Fresh

namespace Retry

/-- Modelled from the spec: the retry controller's configuration (§4.7 and
how-keys-work.md "retry") — maximum retries, initial delay, backoff
multiplier and delay ceiling, all delays in milliseconds. The controller
implementation is not in the repository. -/
structure RetryConfig where
  maxRetries : Nat
  initialDelay : Nat
  multiplier : Nat
  maxDelay : Nat
  deriving Repr

/-- Modelled from the spec: the documented defaults — `maxRetries: 3`,
`initialDelay: 350ms`, `multiplier: 2`, `maxDelay: 5 seconds`. -/
def defaultRetry : RetryConfig :=
  { maxRetries := 3, initialDelay := 350, multiplier := 2, maxDelay := 5000 }

/-- Modelled from the spec: the backoff delay slept after failed attempt
`attempt` (0-based): `min(initialDelay * multiplier ^ attempt, maxDelay)`. -/
def retryDelay (c : RetryConfig) (attempt : Nat) : Nat :=
  min (c.initialDelay * c.multiplier ^ attempt) c.maxDelay

/-- Modelled from the spec: the timing log of one attempt — the instant it
started and the instant it finished. -/
structure AttemptLog where
  start : Nat
  finish : Nat
  deriving Repr, DecidableEq

/-- Modelled from the spec: the retry loop (§4.7). `act i` is the outcome of
attempt `i`, `dur i` how long attempt `i` takes. On failure with retries
remaining, the controller sleeps `retryDelay c attempt` measured from the
instant the failed attempt finished, then retries with `attempt + 1`; after
exhausting retries the last error is surfaced, intermediate errors are
discarded. Returns the surfaced outcome and the log of all attempts. -/
def retryGo {ε : Type} (c : RetryConfig) (act : Nat → Except ε Unit)
    (dur : Nat → Nat) :
    Nat → Nat → Nat → Except ε Unit × List AttemptLog
  | attempt, now, 0 =>
    (act attempt, [{ start := now, finish := now + dur attempt }])
  | attempt, now, fuel + 1 =>
    let log : AttemptLog := { start := now, finish := now + dur attempt }
    match act attempt with
    | .ok u => (.ok u, [log])
    | .error _ =>
      let rest := retryGo c act dur (attempt + 1)
        (log.finish + retryDelay c attempt) fuel
      (rest.1, log :: rest.2)

/-- Modelled from the spec: a full dispatch under the retry controller —
attempt 0 runs immediately (at instant 0) and at most `maxRetries` retries
follow. -/
def retryRun {ε : Type} (c : RetryConfig) (act : Nat → Except ε Unit)
    (dur : Nat → Nat) : Except ε Unit × List AttemptLog :=
  retryGo c act dur 0 0 c.maxRetries

end Retry

namespace ErrorChain

/-- Modelled from the spec: what a `catchError` handler does with an error —
return normally (the error is fully suppressed) or raise a value that the
next stage receives (§4.8). -/
inductive HandlerResult (ε : Type) where
  | suppress
  | rethrow (e : ε)
  deriving Repr, DecidableEq

/-- Modelled from the spec: the three stages of the error-interception chain
in their fixed order — the call-site `catchError` in the `mix` call, the
`catchError` of the reusable `MixConfig`, and the global
`Superpowers.globalCatchError` (global-catch-error.md). -/
inductive Stage where
  | callSite
  | config
  | globalHandler
  deriving Repr, DecidableEq

/-- Modelled from the spec: the resolved interception chain of a dispatch —
each stage's handler is optional. The dispatcher implementation is not in
the repository. -/
structure Chain (ε : Type) where
  callSite : Option (ε → HandlerResult ε)
  config : Option (ε → HandlerResult ε)
  globalHandler : Option (ε → HandlerResult ε)

/-- Modelled from the spec: running one optional handler — an absent handler
passes the error through unchanged without being invoked. -/
def runStage {ε : Type} (h : Option (ε → HandlerResult ε)) (e : ε) :
    HandlerResult ε :=
  match h with
  | none => .rethrow e
  | some f => f e

/-- Modelled from the spec: the handler a chain holds at a given stage. -/
def stageHandler {ε : Type} (c : Chain ε) : Stage → Option (ε → HandlerResult ε)
  | .callSite => c.callSite
  | .config => c.config
  | .globalHandler => c.globalHandler

/-- Modelled from the spec: one tail of the interception chain — run the
listed stages in order against the error, recording which stages were
invoked (only present handlers are invoked); if a handler suppresses, the
chain stops and later handlers are not invoked. Returns the surviving error,
if any, and the invocation record. -/
def runStages {ε : Type} (c : Chain ε) :
    List Stage → ε → Option ε × List Stage
  | [], e => (some e, [])
  | st :: rest, e =>
    match stageHandler c st with
    | none => runStages c rest e
    | some f =>
      match f e with
      | .suppress => (none, [st])
      | .rethrow e2 =>
        let tail := runStages c rest e2
        (tail.1, st :: tail.2)

/-- Modelled from the spec: the full interception chain on an action fault
that survived retry — call-site `catchError`, then reusable-config
`catchError`, then the global handler (global-catch-error.md: "1. First, the
catchError in the mix call. 2. Then, the catchError in MixConfig.
3. Finally, the global Superpowers.globalCatchError."). -/
def runChain {ε : Type} (c : Chain ε) (e : ε) : Option ε × List Stage :=
  runStages c [.callSite, .config, .globalHandler] e

end ErrorChain

namespace SyncWithPush

open ErrorChain

/-- Modelled from the spec: what the caller-supplied `sendValueToServer`
callback of `optimisticSyncWithPush` did — either it raised an error, or it
returned, having invoked the `informServerRevision` callback with the
server-assigned revision or not (`none`). The engine implementation is not
in the repository. -/
inductive SendResult (ε : Type) where
  | threw (e : ε)
  | returned (informedRevision : Option Nat)
  deriving Repr, DecidableEq

/-- Modelled from the spec: the faults a push-variant dispatch can surface —
an action fault (the callback raised; subject to the interception chain) or
the protocol fault (`StateError`) raised when the callback returned without
reporting the server revision (§7, optimistic-sync-with-push.md: "If you
don't call it, a StateError is thrown at runtime"). -/
inductive Fault (ε : Type) where
  | actionFault (e : ε)
  | protocolFault
  deriving Repr, DecidableEq

/-- Modelled from the spec: outcome processing of one push-variant request
(§7 propagation policy). An action fault goes through the three-stage
interception chain. A callback that returned without invoking
`informServerRevision` is a programming-error fault raised synchronously at
the call site, bypassing the chain entirely: no handler is invoked. Returns
the surfaced fault, if any, and the record of invoked chain stages. -/
def pushDispatch {ε : Type} (c : Chain ε) (send : SendResult ε) :
    Option (Fault ε) × List Stage :=
  match send with
  | .threw e =>
    let r := runChain c e
    (r.1.map .actionFault, r.2)
  | .returned (some _) => (none, [])
  | .returned none => (some .protocolFault, [])

end SyncWithPush

namespace Sequential

/-- Modelled from the spec: the `sequential` modifier's configuration
(sequential.md) — queue bound (`none` is the unlimited default), the
admission policy when full, and the per-item queue timeout. The queue
implementation is not in the repository. -/
structure SeqConfig where
  maxQueueSize : Option Nat := none
  dropOldest : Bool := false
  queueTimeout : Option Nat := none
  deriving Repr, DecidableEq

/-- Modelled from the spec: the `sequential.latestWins` shortcut — the
documentation defines it as equivalent to
`sequential(maxQueueSize: 1, dropOldest: true)`, chainable with other
options such as `queueTimeout`. -/
def latestWins (c : SeqConfig) : SeqConfig :=
  { c with maxQueueSize := some 1, dropOldest := true }

/-- Modelled from the spec: a queued item — the call it stands for and the
instant it was enqueued, from which its timeout deadline is measured. -/
structure QItem where
  callId : Nat
  enqueuedAt : Nat
  deriving Repr, DecidableEq

/-- Modelled from the spec: the per-key state of the sequential queue
(§4.6): the calls currently running (the machine must keep this to at most
one), the FIFO queue of waiting items, and the history of calls that started
executing and of calls dropped without executing, in order. -/
structure SeqState where
  running : List Nat
  queue : List QItem
  executed : List Nat
  dropped : List Nat
  deriving Repr, DecidableEq

/-- Modelled from the spec: the idle initial state of a key's queue. -/
def seqInit : SeqState :=
  { running := [], queue := [], executed := [], dropped := [] }

/-- Modelled from the spec: whether the waiting queue is at the configured
`maxQueueSize` bound (`none` = unlimited, never full). -/
def queueFull (c : SeqConfig) (q : List QItem) : Bool :=
  match c.maxQueueSize with
  | none => false
  | some m => m ≤ q.length

/-- Modelled from the spec: whether a queued item's deadline has passed at
instant `now` — the deadline is `enqueuedAt + queueTimeout`, measured from
enqueue time (§4.6). -/
def timedOut (c : SeqConfig) (it : QItem) (now : Nat) : Bool :=
  match c.queueTimeout with
  | none => false
  | some t => it.enqueuedAt + t < now

/-- Modelled from the spec: a new call arriving at the key (§4.6):
idle → it runs immediately; running with queue not full → appended;
running with queue at `maxQueueSize` → with `dropOldest = false` (the
default) the incoming call is dropped silently like a non-reentrant
rejection, with `dropOldest = true` the oldest queued (not running) item is
evicted and dropped and the incoming call is appended. -/
def seqArrive (c : SeqConfig) (s : SeqState) (id now : Nat) : SeqState :=
  match s.running with
  | [] => { s with running := [id], executed := s.executed ++ [id] }
  | _ :: _ =>
    if queueFull c s.queue then
      if c.dropOldest then
        match s.queue with
        | [] => { s with dropped := s.dropped ++ [id] }
        | old :: rest =>
          { s with queue := rest ++ [{ callId := id, enqueuedAt := now }],
                   dropped := s.dropped ++ [old.callId] }
      else { s with dropped := s.dropped ++ [id] }
    else { s with queue := s.queue ++ [{ callId := id, enqueuedAt := now }] }

/-- Modelled from the spec: the dequeue scan run when the queue advances —
items whose deadline has passed are dropped (no execution, no error) and the
next eligible item is taken (§4.6). Returns the item to run, the remaining
queue, and the ids dropped by timeout, in order. -/
def advanceQueue (c : SeqConfig) (now : Nat) :
    List QItem → Option QItem × List QItem × List Nat
  | [] => (none, [], [])
  | it :: rest =>
    if timedOut c it now then
      let r := advanceQueue c now rest
      (r.1, r.2.1, it.callId :: r.2.2)
    else (some it, rest, [])

/-- Modelled from the spec: the running item completing (success or failure)
(§4.6): the queue advances, timed-out items are discarded, and the next
eligible item, if any, is dequeued and run; otherwise the key returns to
idle. -/
def seqComplete (c : SeqConfig) (s : SeqState) (now : Nat) : SeqState :=
  let r := advanceQueue c now s.queue
  match r.1 with
  | none =>
    { s with running := [], queue := r.2.1, dropped := s.dropped ++ r.2.2 }
  | some it =>
    { s with running := [it.callId], queue := r.2.1,
             executed := s.executed ++ [it.callId],
             dropped := s.dropped ++ r.2.2 }

/-- Modelled from the spec: the events a key's queue reacts to — a new call
arriving and the running call completing. -/
inductive SeqEvent where
  | arrive (callId now : Nat)
  | complete (now : Nat)
  deriving Repr, DecidableEq

/-- Modelled from the spec: one step of the per-key queue state machine. -/
def seqStep (c : SeqConfig) (s : SeqState) : SeqEvent → SeqState
  | .arrive id now => seqArrive c s id now
  | .complete now => seqComplete c s now

/-- Modelled from the spec: running the per-key queue machine from idle over
a sequence of events. -/
def seqRun (c : SeqConfig) (evs : List SeqEvent) : SeqState :=
  evs.foldl (seqStep c) seqInit

/-- Specification helper: the call id an event contributes to the enqueue
order of a trace — arrivals contribute their id, completions nothing. -/
def eventIds : SeqEvent → List Nat
  | .arrive id _ => [id]
  | .complete _ => []

/-- Specification helper: the ids of the calls of a trace in enqueue order,
used to state the FIFO property. -/
def arrivalIds : List SeqEvent → List Nat
  | [] => []
  | e :: rest => eventIds e ++ arrivalIds rest

end Sequential

namespace Lifecycle

open Superpowers

/-- Modelled from the spec: the default value `Superpowers.clear()` restores
`maxErrorsQueued` to. The documentation's reset table says "reset to
default" without stating the number; the claims here do not depend on it. -/
def defaultMaxErrorsQueued : Nat := 10

/-- Modelled from the spec: the process-wide state held by `Superpowers`
(props.md reset table and §6): the per-key waiting and failure maps, the
props storage with its timers, the queued user-facing errors, the two
registered global handlers (identified by opaque ids), and the error-queue
bound. The implementation is not in the repository. -/
structure GlobalState where
  waiting : KeyVal → Option Bool
  failed : KeyVal → Option Nat
  props : KeyVal → Option Nat
  errorQueue : List Nat
  globalCatchError : Option Nat
  observer : Option Nat
  maxErrorsQueued : Nat

/-- Modelled from the spec: `Superpowers.clear()`, the full lifecycle reset
used by test harnesses — clears every per-key map (waiting, failed, props),
the error queue, removes both registered global handlers (reset to null) and
restores `maxErrorsQueued` to its default (props.md reset table). -/
def clear (_s : GlobalState) : GlobalState :=
  { waiting := fun _ => none, failed := fun _ => none, props := fun _ => none,
    errorQueue := [], globalCatchError := none, observer := none,
    maxErrorsQueued := defaultMaxErrorsQueued }

/-- Modelled from the spec: `Superpowers.prepareToLogout()`, the user-scope
reset used on logout — clears the same per-key maps and the error queue but
keeps the registered global handlers and `maxErrorsQueued` unchanged
(props.md reset table). -/
def prepareToLogout (s : GlobalState) : GlobalState :=
  { s with waiting := fun _ => none, failed := fun _ => none,
           props := fun _ => none, errorQueue := [] }

end Lifecycle

open Superpowers OptimisticSync Fresh Retry ErrorChain SyncWithPush Sequential Lifecycle

/-- C1: on request completion of the `optimisticSync` engine, the value that
was sent is compared against the current externally-observable value: equal
→ the lock is released, `onFinish` runs, and no further request is sent;
different → exactly one follow-up request carrying the current value is
sent, the lock retained. In particular, after a request that sent `true` on
a toggled boolean, three rapid toggles while it is in flight yield exactly
one additional follow-up request (carrying the current value), while a net
change returning to the originally sent value (two toggles) yields zero
follow-ups. -/
theorem optimisticSync_completion_coalescing :
    (∀ (α : Type) [DecidableEq α] (s : SyncState α) (v : α),
        s.sentValue = some v →
        ((s.value = v →
            syncComplete s =
              { s with lock := false, sentValue := none, finished := true }) ∧
         (s.value ≠ v →
            syncComplete s =
              { s with sentValue := some s.value,
                       requestsSent := s.requestsSent + 1 }))) ∧
    ((syncCall (initState false) true).sentValue = some true ∧
     (syncCall (initState false) true).lock = true ∧
     (syncCall (initState false) true).requestsSent = 1 ∧
     (syncComplete (toggle (toggle (toggle (syncCall (initState false) true))))).requestsSent = 2 ∧
     (syncComplete (toggle (toggle (toggle (syncCall (initState false) true))))).sentValue = some false ∧
     (syncComplete (toggle (toggle (toggle (syncCall (initState false) true))))).lock = true ∧
     (syncComplete (toggle (toggle (syncCall (initState false) true)))).requestsSent = 1 ∧
     (syncComplete (toggle (toggle (syncCall (initState false) true)))).lock = false ∧
     (syncComplete (toggle (toggle (syncCall (initState false) true)))).finished = true) := by
  constructor
  · intro α _ s v hsent
    constructor
    · intro hv
      simp [syncComplete, hsent, hv]
    · intro hv
      simp [syncComplete, hsent, hv]
  · refine ⟨rfl, rfl, rfl, ?_, ?_, ?_, ?_, ?_, ?_⟩ <;> decide

/-- C1 witness: completing a request whose sent value `true` equals the
current value releases the lock, marks the sync finished and sends no
follow-up. -/
theorem optimisticSync_completion_coalescing_witness :
    syncComplete { value := true, lock := true, sentValue := some true,
                   requestsSent := 1, finished := false } =
      ({ value := true, lock := false, sentValue := none,
         requestsSent := 1, finished := true } : SyncState Bool) :=
  (optimisticSync_completion_coalescing.1 Bool
    { value := true, lock := true, sentValue := some true,
      requestsSent := 1, finished := false } true rfl).1 rfl

/-- C2: when a `fresh`-guarded dispatch fails, the `FreshnessMap` entry for
its key is restored to the value captured at dispatch start: with no prior
fresh entry the key ends with no fresh entry, a pre-existing fresh time is
kept, and a fresher entry committed by a different call that completed after
this call started is kept as is — failure never advances freshness and never
erases a fresher entry. -/
theorem fresh_failure_rollback :
    ∀ (k : KeyVal) (s0 : FreshState) (nowA ffA : Nat),
      ((s0.map k = none →
          (freshRollback (freshStart s0 k nowA ffA).1 k
              (freshStart s0 k nowA ffA).2 (some (nowA + ffA))).map k = none) ∧
       (∀ t, s0.map k = some t →
          (freshRollback (freshStart s0 k nowA ffA).1 k
              (freshStart s0 k nowA ffA).2 (some (nowA + ffA))).map k = some t) ∧
       (∀ nowB ffB, nowB + ffB ≠ nowA + ffA →
          (freshRollback (freshCommit (freshStart s0 k nowA ffA).1 k nowB ffB) k
              (freshStart s0 k nowA ffA).2 (some (nowA + ffA))).map k
            = some (nowB + ffB))) := by
  intro k s0 nowA ffA
  refine ⟨?_, ?_, ?_⟩
  · intro h
    simp [freshRollback, freshStart, freshCommit, mapUpdate, h]
  · intro t h
    simp [freshRollback, freshStart, freshCommit, mapUpdate, h]
  · intro nowB ffB hne
    simp [freshRollback, freshStart, freshCommit, mapUpdate, hne]

/-- C2 witness: a failing call with no prior fresh entry for its key leaves
the key with no fresh entry, and a fresher entry committed by a different
call after this one started survives the failure. -/
theorem fresh_failure_rollback_witness :
    (freshRollback (freshStart ⟨fun _ => none⟩ (.str "k") 5 10).1 (.str "k")
        (freshStart ⟨fun _ => none⟩ (.str "k") 5 10).2 (some 15)).map (.str "k")
      = none ∧
    (freshRollback (freshCommit (freshStart ⟨fun _ => none⟩ (.str "k") 5 10).1
          (.str "k") 20 10) (.str "k")
        (freshStart ⟨fun _ => none⟩ (.str "k") 5 10).2 (some 15)).map (.str "k")
      = some 30 :=
  ⟨(fresh_failure_rollback (.str "k") ⟨fun _ => none⟩ 5 10).1 rfl,
   (fresh_failure_rollback (.str "k") ⟨fun _ => none⟩ 5 10).2.2 20 10 (by decide)⟩

/-- C3: under the retry controller with `maxRetries = 3`,
`initialDelay = 350`, `multiplier = 2` (the defaults), an action that fails
on every attempt is invoked exactly 4 times, each retry starting
`min(350 * 2 ^ attempt, maxDelay)` — 350ms, 700ms, 1400ms — after the instant
the previous failed attempt finished, and the surfaced error is the last
attempt's error, the intermediate ones being discarded. -/
theorem retry_backoff_schedule :
    ∀ (dur : Nat → Nat),
      retryRun defaultRetry (fun i => (Except.error i : Except Nat Unit)) dur =
        (Except.error 3,
          [{ start := 0, finish := dur 0 },
           { start := dur 0 + 350, finish := dur 0 + 350 + dur 1 },
           { start := dur 0 + 350 + dur 1 + 700,
             finish := dur 0 + 350 + dur 1 + 700 + dur 2 },
           { start := dur 0 + 350 + dur 1 + 700 + dur 2 + 1400,
             finish := dur 0 + 350 + dur 1 + 700 + dur 2 + 1400 + dur 3 }]) ∧
      (retryRun defaultRetry (fun i => (Except.error i : Except Nat Unit)) dur).2.length = 4 := by
  intro dur
  have h : retryRun defaultRetry (fun i => (Except.error i : Except Nat Unit)) dur =
      (Except.error 3,
        [{ start := 0, finish := dur 0 },
         { start := dur 0 + 350, finish := dur 0 + 350 + dur 1 },
         { start := dur 0 + 350 + dur 1 + 700,
           finish := dur 0 + 350 + dur 1 + 700 + dur 2 },
         { start := dur 0 + 350 + dur 1 + 700 + dur 2 + 1400,
           finish := dur 0 + 350 + dur 1 + 700 + dur 2 + 1400 + dur 3 }]) := by
    simp [retryRun, retryGo, retryDelay, defaultRetry]
  exact ⟨h, by rw [h]; rfl⟩

/-- Helper: the stages an interception chain actually invokes always form a
subsequence of the stage list it was given, in the given order. -/
theorem runStages_sublist {ε : Type} (c : Chain ε) :
    ∀ (sts : List Stage) (e : ε), ((runStages c sts e).2).Sublist sts := by
  intro sts
  induction sts with
  | nil => intro e; simp [runStages]
  | cons st rest ih =>
    intro e
    simp only [runStages]
    cases hst : stageHandler c st with
    | none => exact (ih e).cons st
    | some f =>
      cases hf : f e with
      | suppress => simp [hf]
      | rethrow e2 => simpa [hf] using (ih e2).cons₂ st

/-- C4: when an action fault survives retry, the interception handlers run
in the fixed order call-site `catchError`, then reusable-config
`catchError`, then the global handler, and a handler that suppresses the
error at any stage stops the chain: no later handler is invoked. -/
theorem errorChain_order_shortcircuit :
    (∀ (ε : Type) (c : Chain ε) (e : ε),
        ((runChain c e).2).Sublist [Stage.callSite, Stage.config, Stage.globalHandler]) ∧
    (∀ (ε : Type) (c : Chain ε) (st : Stage) (rest : List Stage) (e : ε)
        (f : ε → HandlerResult ε),
        stageHandler c st = some f → f e = .suppress →
        runStages c (st :: rest) e = (none, [st])) ∧
    (∀ (ε : Type) (c : Chain ε) (e : ε) (f : ε → HandlerResult ε),
        c.callSite = some f → f e = .suppress →
        runChain c e = (none, [Stage.callSite])) := by
  refine ⟨?_, ?_, ?_⟩
  · intro ε c e
    exact runStages_sublist c _ e
  · intro ε c st rest e f hst hf
    simp [runStages, hst, hf]
  · intro ε c e f hcs hf
    have hst : stageHandler c .callSite = some f := hcs
    simp [runChain, runStages, hst, hf]

/-- C4 witness: a call-site `catchError` that suppresses the error stops the
chain — neither the reusable-config handler nor the global handler is
invoked, even when both are registered. -/
theorem errorChain_order_shortcircuit_witness :
    runChain
      { callSite := some (fun _ => .suppress),
        config := some (fun e => .rethrow e),
        globalHandler := some (fun _ => .suppress) } (7 : Nat)
      = (none, [Stage.callSite]) :=
  errorChain_order_shortcircuit.2.2 Nat
    { callSite := some (fun _ => .suppress),
      config := some (fun e => .rethrow e),
      globalHandler := some (fun _ => .suppress) } 7
    (fun _ => .suppress) rfl rfl

/-- Helper: an arriving call either leaves the running slot untouched or
fills an empty one with itself. -/
theorem seqArrive_running_cases (c : SeqConfig) (s : SeqState) (id now : Nat) :
    (seqArrive c s id now).running = s.running ∨
    (s.running = [] ∧ (seqArrive c s id now).running = [id]) := by
  obtain ⟨r, q, ex, dr⟩ := s
  cases r with
  | nil => exact Or.inr ⟨rfl, rfl⟩
  | cons a tl =>
    left
    simp only [seqArrive]
    split
    · split
      · cases q <;> rfl
      · rfl
    · rfl

/-- Helper: after a completion the running slot holds at most one call. -/
theorem seqComplete_running_len (c : SeqConfig) (s : SeqState) (now : Nat) :
    ((seqComplete c s now).running).length ≤ 1 := by
  simp only [seqComplete]
  split <;> simp

/-- Helper: every step of the queue machine keeps the running slot at not
more than one call. -/
theorem seqStep_running_le (c : SeqConfig) (s : SeqState) (e : SeqEvent)
    (h : s.running.length ≤ 1) : ((seqStep c s e).running).length ≤ 1 := by
  cases e with
  | arrive id now =>
    rcases seqArrive_running_cases c s id now with h1 | ⟨_, h1⟩ <;>
      simp only [seqStep] <;> rw [h1] <;> simp [h]
  | complete now => exact seqComplete_running_len c s now

/-- Helper: one step of the queue machine with an unlimited queue and no
timeout — the enqueue order of executed-then-waiting calls grows exactly by
the arriving id, and an empty running slot forces an empty queue. -/
theorem seqStep_unbounded (c : SeqConfig) (hm : c.maxQueueSize = none)
    (ht : c.queueTimeout = none) (s : SeqState) (e : SeqEvent)
    (hs : s.running = [] → s.queue = []) :
    ((seqStep c s e).running = [] → (seqStep c s e).queue = []) ∧
    (seqStep c s e).executed ++ ((seqStep c s e).queue.map QItem.callId)
      = s.executed ++ s.queue.map QItem.callId ++ eventIds e := by
  obtain ⟨r, q, ex, dr⟩ := s
  cases e with
  | arrive id now =>
    cases r with
    | nil =>
      have hq : q = [] := hs rfl
      subst hq
      simp [seqStep, seqArrive, eventIds]
    | cons a tl =>
      have hfull : queueFull c q = false := by simp [queueFull, hm]
      simp [seqStep, seqArrive, hfull, eventIds]
  | complete now =>
    cases q with
    | nil => simp [seqStep, seqComplete, advanceQueue, eventIds]
    | cons it rest =>
      have htimed : timedOut c it now = false := by simp [timedOut, ht]
      simp [seqStep, seqComplete, advanceQueue, htimed, eventIds]

/-- Helper: over any trace, with an unlimited queue and no timeout, the
executed calls followed by the still-waiting calls are exactly the prior
ones followed by the trace's arrivals in enqueue order. -/
theorem seqRun_fifo_aux (c : SeqConfig) (hm : c.maxQueueSize = none)
    (ht : c.queueTimeout = none) :
    ∀ (evs : List SeqEvent) (s : SeqState), (s.running = [] → s.queue = []) →
      ((evs.foldl (seqStep c) s).running = [] →
        (evs.foldl (seqStep c) s).queue = []) ∧
      (evs.foldl (seqStep c) s).executed ++
          ((evs.foldl (seqStep c) s).queue.map QItem.callId)
        = s.executed ++ s.queue.map QItem.callId ++ arrivalIds evs := by
  intro evs
  induction evs with
  | nil =>
    intro s hs
    exact ⟨hs, by simp [arrivalIds]⟩
  | cons e rest ih =>
    intro s hs
    obtain ⟨h1, h2⟩ := seqStep_unbounded c hm ht s e hs
    obtain ⟨h3, h4⟩ := ih (seqStep c s e) h1
    refine ⟨by simpa using h3, ?_⟩
    simp only [List.foldl_cons]
    rw [h4, h2]
    simp [arrivalIds]

/-- C5: under the sequential queue, at most one call is running for a key at
any instant along any event trace; and with an unlimited queue and no
timeout (so nothing is dropped) calls execute strictly in enqueue order: the
executed history followed by the waiting queue always equals the enqueue
order of the trace, and three calls enqueued as 1, 2, 3 execute as
`[1, 2, 3]`. -/
theorem sequential_mutual_exclusion_fifo :
    (∀ (c : SeqConfig) (evs : List SeqEvent),
        ((seqRun c evs).running).length ≤ 1) ∧
    (∀ (c : SeqConfig), c.maxQueueSize = none → c.queueTimeout = none →
        ∀ evs : List SeqEvent,
          (seqRun c evs).executed ++ ((seqRun c evs).queue.map QItem.callId)
            = arrivalIds evs) ∧
    (seqRun {} [.arrive 1 0, .arrive 2 0, .arrive 3 0,
                .complete 1, .complete 2, .complete 3]).executed = [1, 2, 3] := by
  refine ⟨?_, ?_, ?_⟩
  · intro c evs
    suffices h : ∀ (s : SeqState), s.running.length ≤ 1 →
        ((evs.foldl (seqStep c) s).running).length ≤ 1 from
      h seqInit (by simp [seqInit])
    induction evs with
    | nil => intro s hs; simpa using hs
    | cons e rest ih =>
      intro s hs
      simpa using ih _ (seqStep_running_le c s e hs)
  · intro c hm ht evs
    have h := (seqRun_fifo_aux c hm ht evs seqInit (fun _ => rfl)).2
    simpa [seqRun, seqInit] using h
  · decide

/-- C5 witness: on a concrete trace with the default unlimited queue, the
executed history followed by the waiting queue is the enqueue order. -/
theorem sequential_mutual_exclusion_fifo_witness :
    (seqRun {} [.arrive 7 0, .arrive 8 0, .complete 1, .complete 2]).executed ++
        ((seqRun {} [.arrive 7 0, .arrive 8 0, .complete 1, .complete 2]).queue.map
          QItem.callId)
      = arrivalIds [.arrive 7 0, .arrive 8 0, .complete 1, .complete 2] :=
  sequential_mutual_exclusion_fifo.2.1 {} rfl rfl
    [.arrive 7 0, .arrive 8 0, .complete 1, .complete 2]

/-- C6: when a new call arrives for a key whose queue is at `maxQueueSize`
while an item is running, with `dropOldest = false` (the default) the
incoming call is dropped silently like a non-reentrant rejection, and with
`dropOldest = true` the oldest queued (not running) item is evicted and
dropped while the incoming call is appended to the queue. -/
theorem sequential_queue_full_policy :
    ∀ (c : SeqConfig) (s : SeqState) (id now : Nat),
      s.running ≠ [] → queueFull c s.queue = true →
      ((c.dropOldest = false →
          seqArrive c s id now = { s with dropped := s.dropped ++ [id] }) ∧
       (∀ old rest, c.dropOldest = true → s.queue = old :: rest →
          seqArrive c s id now =
            { s with queue := rest ++ [{ callId := id, enqueuedAt := now }],
                     dropped := s.dropped ++ [old.callId] })) := by
  intro c s id now hr hfull
  obtain ⟨r, q, ex, dr⟩ := s
  cases r with
  | nil => exact absurd rfl hr
  | cons a tl =>
    constructor
    · intro hd
      simp [seqArrive, hfull, hd]
    · intro old rest hd hq
      subst hq
      simp [seqArrive, hfull, hd]

/-- C6 witness: at a full one-slot queue with a call running, the default
policy drops the incoming call, and `dropOldest` evicts the waiting item and
appends the incoming call. -/
theorem sequential_queue_full_policy_witness :
    seqArrive { maxQueueSize := some 1 }
        { running := [5], queue := [{ callId := 6, enqueuedAt := 0 }],
          executed := [5], dropped := [] } 7 3
      = { running := [5], queue := [{ callId := 6, enqueuedAt := 0 }],
          executed := [5], dropped := [7] } ∧
    seqArrive { maxQueueSize := some 1, dropOldest := true }
        { running := [5], queue := [{ callId := 6, enqueuedAt := 0 }],
          executed := [5], dropped := [] } 7 3
      = { running := [5], queue := [{ callId := 7, enqueuedAt := 3 }],
          executed := [5], dropped := [6] } :=
  ⟨(sequential_queue_full_policy { maxQueueSize := some 1 }
      { running := [5], queue := [{ callId := 6, enqueuedAt := 0 }],
        executed := [5], dropped := [] } 7 3 (by decide) rfl).1 rfl,
   (sequential_queue_full_policy { maxQueueSize := some 1, dropOldest := true }
      { running := [5], queue := [{ callId := 6, enqueuedAt := 0 }],
        executed := [5], dropped := [] } 7 3 (by decide) rfl).2
     { callId := 6, enqueuedAt := 0 } [] rfl rfl⟩

/-- C7: in the `optimisticSyncWithPush` engine, a `sendValueToServer`
callback that returns without invoking `informServerRevision` raises the
programming-error fault (`StateError`) with no interception handler invoked,
whatever handlers are registered — while a callback that raises goes through
the three-stage interception chain as an action fault, and a callback that
does report a revision raises nothing. -/
theorem push_protocol_fault :
    (∀ (ε : Type) (c : Chain ε),
        pushDispatch c (.returned none) = (some .protocolFault, [])) ∧
    (∀ (ε : Type) (c : Chain ε) (rev : Nat),
        pushDispatch c (.returned (some rev)) = (none, [])) ∧
    (∀ (ε : Type) (c : Chain ε) (e : ε),
        pushDispatch c (.threw e)
          = ((runChain c e).1.map Fault.actionFault, (runChain c e).2)) :=
  ⟨fun _ _ => rfl, fun _ _ _ => rfl, fun _ _ _ => rfl⟩

/-- C8: the full lifecycle reset `Superpowers.clear()` empties every per-key
map, the error queue, and removes the registered global handlers
(`globalCatchError` and `observer` reset to null), whereas the user-scope
reset `Superpowers.prepareToLogout()` empties the same maps but leaves the
global handler registrations (and `maxErrorsQueued`) unchanged. -/
theorem lifecycle_reset :
    ∀ (s : GlobalState) (k : KeyVal),
      (clear s).waiting k = none ∧ (clear s).failed k = none ∧
      (clear s).props k = none ∧ (clear s).errorQueue = [] ∧
      (clear s).globalCatchError = none ∧ (clear s).observer = none ∧
      (prepareToLogout s).waiting k = none ∧
      (prepareToLogout s).failed k = none ∧
      (prepareToLogout s).props k = none ∧
      (prepareToLogout s).errorQueue = [] ∧
      (prepareToLogout s).globalCatchError = s.globalCatchError ∧
      (prepareToLogout s).observer = s.observer ∧
      (prepareToLogout s).maxErrorsQueued = s.maxErrorsQueued :=
  fun _ _ =>
    ⟨rfl, rfl, rfl, rfl, rfl, rfl, rfl, rfl, rfl, rfl, rfl, rfl, rfl⟩

/-- C9: `sequential.latestWins` is the configuration
`sequential(maxQueueSize: 1, dropOldest: true)`: on every event trace both
machines admit, supersede and execute exactly the same calls in the same
order; an arriving call never aborts the running call (only waiting calls
are superseded); and on the trace A, B, C the machine processes A, drops B,
and processes C. -/
theorem latest_wins_equiv :
    (∀ (c : SeqConfig),
        latestWins c = { c with maxQueueSize := some 1, dropOldest := true }) ∧
    (∀ (c : SeqConfig) (evs : List SeqEvent),
        seqRun (latestWins c) evs =
          seqRun { c with maxQueueSize := some 1, dropOldest := true } evs) ∧
    (∀ (c : SeqConfig) (s : SeqState) (id now : Nat),
        s.running ≠ [] → (seqArrive (latestWins c) s id now).running = s.running) ∧
    ((seqRun (latestWins {}) [.arrive 1 0, .arrive 2 0, .arrive 3 0,
        .complete 1, .complete 2]).executed = [1, 3] ∧
     (seqRun (latestWins {}) [.arrive 1 0, .arrive 2 0, .arrive 3 0,
        .complete 1, .complete 2]).dropped = [2]) := by
  refine ⟨fun c => rfl, fun c evs => rfl, ?_, by decide⟩
  intro c s id now hr
  rcases seqArrive_running_cases (latestWins c) s id now with h | ⟨hnil, _⟩
  · exact h
  · exact absurd hnil hr

/-- C9 witness: an arriving call at a busy `latestWins` key leaves the
running call untouched. -/
theorem latest_wins_equiv_witness :
    (seqArrive (latestWins {})
        { running := [5], queue := [{ callId := 6, enqueuedAt := 0 }],
          executed := [5], dropped := [] } 7 3).running = [5] :=
  latest_wins_equiv.2.2.1 {}
    { running := [5], queue := [{ callId := 6, enqueuedAt := 0 }],
      executed := [5], dropped := [] } 7 3 (by decide)

/-- C10: a call made with `key: this` from inside a Cubit or Bloc gets the
instance's `runtimeType` as its effective key, not the instance itself; all
instances of the same class therefore share every per-key map entry, and two
instances are tracked independently exactly when their runtime types differ
(that is, never, unless a different key is supplied). -/
theorem key_this_runtime_type :
    (∀ b : BlocInstance,
        effectiveKey (.thisRef b) = .typeToken b.runtimeType) ∧
    (∀ b : BlocInstance,
        effectiveKey (.thisRef b) ≠ .instanceRef b.runtimeType b.instanceId) ∧
    (∀ b1 b2 : BlocInstance,
        effectiveKey (.thisRef b1) = effectiveKey (.thisRef b2) ↔
          b1.runtimeType = b2.runtimeType) ∧
    (∀ (α : Type) (m : KeyVal → Option α) (b1 b2 : BlocInstance),
        b1.runtimeType = b2.runtimeType →
        m (effectiveKey (.thisRef b1)) = m (effectiveKey (.thisRef b2))) := by
  refine ⟨fun b => rfl, ?_, ?_, ?_⟩
  · intro b
    simp [effectiveKey]
  · intro b1 b2
    simp [effectiveKey]
  · intro α m b1 b2 h
    simp [effectiveKey, h]

/-- C10 witness: two distinct instances of the same class read the same
entry of a per-key map. -/
theorem key_this_runtime_type_witness :
    mapUpdate (fun _ => none) (.typeToken 3) (some 99)
        (effectiveKey (.thisRef { runtimeType := 3, instanceId := 1 }))
      = mapUpdate (fun _ => none) (.typeToken 3) (some 99)
          (effectiveKey (.thisRef { runtimeType := 3, instanceId := 2 })) :=
  key_this_runtime_type.2.2.2 Nat
    (mapUpdate (fun _ => none) (.typeToken 3) (some 99))
    { runtimeType := 3, instanceId := 1 }
    { runtimeType := 3, instanceId := 2 } rfl
